import Mathlib

/-!
Verification of the OWGenes widget logic
(orangecontrib/bioinformatics/widgets/OWGenes.py).

The Python module is a GUI widget; the framework plumbing (Qt layout, signal
wiring, settings persistence) is out of scope.  What is embedded here is the
data-shaping logic of the widget: locating the gene column, extracting gene
names from the input table, assembling the output table in its two
orientations, the filtering of unmatched genes, the renaming of features to
gene symbols, the partition of genes into the matched/unknown display models,
the tax-id default, and the toggling of the exclude-unmatched option.

Orange tables are embedded shallowly: a variable is a name, a type tag and an
attribute dictionary (association list); a domain is its three variable lists;
the cells that matter to the claims (the selected gene column, the gene-id
column of the output) are lists of strings, a missing cell being `none`.
-/

namespace OWGenes

/-- Orange variable kinds relevant to the widget
(`DiscreteVariable`, `StringVariable`, the rest). -/
inductive VarType where
  | discrete
  | string
  | continuous
  | time
deriving DecidableEq, Repr

/-- An Orange `Variable`: its name, its kind and its `attributes` dict. -/
structure Variable where
  name : String
  vtype : VarType
  attrs : List (String × String)
deriving DecidableEq, Repr

/-- An Orange `Domain`: attributes (features), class variables and metas. -/
structure Domain where
  attributes : List Variable
  class_vars : List Variable
  metas : List Variable
deriving DecidableEq, Repr

/-- The variables of a domain in Orange lookup order:
features first, then class variables, then metas. -/
def domainVars (d : Domain) : List Variable :=
  d.attributes ++ d.class_vars ++ d.metas

/-- A gene held by the `GeneMatcher`: the input name it came from, the Entrez
id when the match succeeded (`gene.ncbi_id`, `None` otherwise, already
rendered as a string), and the gene symbol when the matcher loaded one
(accessing `gene.symbol` on a gene without one raises `AttributeError`,
which `commit` swallows). -/
structure Gene where
  input_name : String
  ncbi_id : Option String
  symbol : Option String
deriving DecidableEq, Repr

/-- Python dict read: value of the first binding of key `k`. -/
def lookupAttr (ps : List (String × String)) (k : String) : Option String :=
  match ps.find? (fun p => p.1 = k) with
  | some p => some p.2
  | none => none

/-- Python dict write `ps[k] = v`: replace the value in place when the key is
bound, append the binding otherwise. -/
def setAttr (ps : List (String × String)) (k v : String) : List (String × String) :=
  if ps.any (fun p => p.1 = k) then
    ps.map (fun p => if p.1 = k then (k, v) else p)
  else
    ps ++ [(k, v)]

/-! ### gene_column_identifier (OWGenes.py lines 436-449)

`candidates = ((col, np.unique(col_view).size) for col in self.gene_columns_model
               if isinstance(col, DiscreteVariable) or isinstance(col, StringVariable))
 best_candidate, _ = sorted(candidates, key=lambda x: x[1])[-1]`

A column of the model is embedded as the variable together with the values of
its column view; `np.unique(...).size` is the number of distinct values.
Python `sorted` is stable and ascending, and `[-1]` takes the last element of
the sorted list. -/

/-- `np.unique(values).size`: number of distinct values in a column view. -/
def uniqueCount (l : List String) : Nat := l.dedup.length

/-- The candidate generator of `gene_column_identifier`: the columns of
`gene_columns_model` that are discrete or string variables, paired with
their unique-value counts. -/
def colCandidates (cols : List (Variable × List String)) : List (Variable × Nat) :=
  (cols.filter (fun c => c.1.vtype = VarType.discrete || c.1.vtype = VarType.string)).map
    (fun c => (c.1, uniqueCount c.2))

/-- `OWGenes.gene_column_identifier`: sort the candidates by their
unique-value count (stably, ascending) and take the last one; `none` models
the `IndexError` of `[-1]` on an empty candidate list. -/
def gene_column_identifier (cols : List (Variable × List String)) : Option Variable :=
  (((colCandidates cols).mergeSort (fun a b => decide (a.2 ≤ b.2))).getLast?).map Prod.fst

/-! ### gene_names_from_table (OWGenes.py lines 394-406)

A cell of the selected gene column is embedded as `Option String`: Orange
wraps non-primitive cells in `Value`, whose float part is NaN exactly when
the value is missing, so `np.isnan(e[col])` tests missingness and
`str(e[col])` renders the stored string. -/

/-- `np.isnan(e[col])` on a cell of the selected gene column. -/
def np_isnan (c : Option String) : Bool := c.isNone

/-- `str(e[col])`: Orange renders a missing `Value` as the string `?`. -/
def pyStrCell (c : Option String) : String :=
  match c with
  | some s => s
  | none => "?"

/-- The input-table slice `gene_names_from_table` reads: the feature names of
the domain and the cells of the selected gene column. -/
structure InputSlice where
  attrNames : List String
  geneColCells : List (Option String)
deriving DecidableEq, Repr

/-- `OWGenes.gene_names_from_table`: start from an empty list; with no input
data leave it empty; with `use_attr_names` take the stripped name of every
feature of the domain; otherwise take the string value of the selected gene
column on every row whose cell is not NaN. -/
def gene_names_from_table (input_data : Option InputSlice) (use_attr_names : Bool) :
    List String :=
  match input_data with
  | none => []
  | some t =>
    if use_attr_names then
      t.attrNames.map (fun s => s.trim)
    else
      (t.geneColCells.filter (fun c => !np_isnan c)).map pyStrCell

/-! ### get_target_ids and known genes (OWGenes.py lines 490-494, 590-591) -/

/-- `str(gene.ncbi_id) if gene.ncbi_id else '?'` for a single gene. -/
def geneTargetId (g : Gene) : String :=
  match g.ncbi_id with
  | some i => i
  | none => "?"

/-- `OWGenes.get_target_ids`. -/
def get_target_ids (genes : List Gene) : List String :=
  genes.map geneTargetId

/-- `known_genes = [gid for gid in gene_ids if gid != '?']` in `commit`. -/
def knownGenes (genes : List Gene) : List String :=
  (get_target_ids genes).filter (fun gid => gid ≠ "?")

/-! ### The per-gene feature update of commit (OWGenes.py lines 540-551)

For each matcher gene whose input name is the name of a domain variable, the
variable's `attributes[target_database]` is set to the gene's Entrez id (or
`?`), and, when `replace_id_with_symbol` is on and the gene has a symbol, the
variable is renamed to the symbol (a gene without a symbol raises
`AttributeError`, which the widget swallows).  Lookup by name finds the first
variable with that name, features first. -/

/-- First index of a variable with the given name (Orange `domain[name]`). -/
def findName (nm : String) : List Variable → Option Nat
  | [] => none
  | v :: vs => if v.name = nm then some 0 else (findName nm vs).map (· + 1)

/-- Update of the list element at a position (in-place mutation of the found
variable object). -/
def modifyAt (f : Variable → Variable) : Nat → List Variable → List Variable
  | _, [] => []
  | 0, v :: vs => f v :: vs
  | n + 1, v :: vs => v :: modifyAt f n vs

/-- The mutation `commit` applies to the variable a gene resolved to:
set its target-database attribute to the gene's id, then rename it to the
gene's symbol when requested and present. -/
def applyGene (tdb : String) (replace : Bool) (g : Gene) (v : Variable) : Variable :=
  let v1 : Variable := { v with attrs := setAttr v.attrs tdb (geneTargetId g) }
  if replace then
    match g.symbol with
    | some s => { v1 with name := s }
    | none => v1
  else v1

/-- One iteration of the `for gene in self.gene_matcher.genes` loop. -/
def processGene (tdb : String) (replace : Bool) (vars : List Variable) (g : Gene) :
    List Variable :=
  match findName g.input_name vars with
  | none => vars
  | some i => modifyAt (applyGene tdb replace g) i vars

/-- The whole gene loop of the genes-as-columns branch of `commit`. -/
def processGenes (tdb : String) (replace : Bool) (vars : List Variable)
    (genes : List Gene) : List Variable :=
  genes.foldl (processGene tdb replace) vars

/-! ### The exclude-unmatched column filter (OWGenes.py lines 563-564)

`output_attrs = [col for col in output_attrs
                 if col.attributes[self.target_database] in known_genes]`

reads the attribute with a plain dict index: a column without the
target-database attribute raises `KeyError`, modelled as `none`. -/

/-- The genes-as-columns exclude-unmatched filter; fails when a column has no
target-database attribute. -/
def excludeFilter (tdb : String) (known : List String) :
    List Variable → Option (List Variable)
  | [] => some []
  | v :: vs =>
    match lookupAttr v.attrs tdb with
    | none => none
    | some id =>
      match excludeFilter tdb known vs with
      | none => none
      | some rest => some (if id ∈ known then v :: rest else rest)

/-! ### The output tables of commit -/

/-- The output table of `commit`, reduced to what the claims observe: its
domain, the values of the gene-id column (genes-as-rows orientation), and the
table-level attributes `TAX_ID`, `GENE_AS_ATTRIBUTE_NAME`, `GENE_ID_COLUMN`
and `GENE_ID_ATTRIBUTE` (absent keys are `none`). -/
structure OutTable where
  domain : Domain
  geneColVals : List String
  tax_id : String
  gene_as_attr_name : Bool
  gene_id_column : Option String
  gene_id_attribute : Option String
deriving DecidableEq, Repr

/-- Modelled from the spec: `GeneMatcher.to_data_table` (external matcher
component, not part of this file) builds the match-report table from the
matcher's genes, restricted to the selection when one is given. -/
structure GMTable where
  genes : List Gene
  selected : Option (List String)
deriving DecidableEq, Repr

/-- Modelled from the spec: the call
`self.gene_matcher.to_data_table(selected_genes=...)`. -/
def to_data_table (genes : List Gene) (selected : Option (List String)) : GMTable :=
  ⟨genes, selected⟩

/-- A send on one of the two output channels of the widget
(`Outputs.data_table` is "Data", `Outputs.gene_matcher_results` is "Genes"),
with its possibly-`None` payload. -/
inductive Emission where
  | dataOut (t : Option OutTable)
  | genesOut (t : Option GMTable)
deriving DecidableEq, Repr

/-! ### commit, genes-as-rows branch (OWGenes.py lines 500-533) -/

/-- Lines 502-511: the metas of the output domain.  When the domain already
has a variable named by the target database it is reused as the gene variable
and the metas stay unchanged; otherwise a fresh string variable is appended
to the metas. -/
def rowsGeneVarMetas (d : Domain) (tdb : String) : List Variable :=
  match (domainVars d).find? (fun v => v.name = tdb) with
  | some _ => d.metas
  | none => d.metas ++ [⟨tdb, VarType.string, []⟩]

/-- Lines 517-519: `selected_rows`, the gene-column values (after
`col[:] = gene_ids`) of the rows the view selection picked. -/
def rowsSelected (gene_ids selected_genes : List String) : List String :=
  gene_ids.filter (fun r => r ∈ selected_genes)

/-- Line 525: `table = table[selected_rows] if selected_rows else table`. -/
def rowsAfterSelection (gene_ids selected_genes : List String) : List String :=
  if (rowsSelected gene_ids selected_genes).isEmpty then gene_ids
  else rowsSelected gene_ids selected_genes

/-- Lines 527-531: the `FilterStringList(gene_var, known_genes)` filter,
applied only under exclude-unmatched. -/
def rowsFinal (gene_ids selected_genes known : List String) (exclude : Bool) :
    List String :=
  if exclude then
    (rowsAfterSelection gene_ids selected_genes).filter (fun r => r ∈ known)
  else rowsAfterSelection gene_ids selected_genes

/-- The genes-as-rows branch of `commit`.  The gene variable is the existing
domain variable named by the target database when there is one (metas
unchanged), else a fresh string variable appended to the metas.
`col[:] = gene_ids` overwrites the gene column, and raises when the id list
and the table have different lengths (`none`).  Rows are then restricted to
the view selection when there is one, and, under exclude-unmatched, to the
rows whose gene id is a known gene. -/
def commit_rows (d : Domain) (nrows : Nat) (gene_ids selected_genes known : List String)
    (exclude : Bool) (organism tdb : String) : Option OutTable :=
  if gene_ids.length = nrows then
    some { domain := ⟨d.attributes, d.class_vars, rowsGeneVarMetas d tdb⟩
           geneColVals := rowsFinal gene_ids selected_genes known exclude
           tax_id := organism
           gene_as_attr_name := false
           gene_id_column := some tdb
           gene_id_attribute := none }
  else none

/-! ### commit, genes-as-columns branch (OWGenes.py lines 536-575) -/

/-- The variables of the copied domain after the gene loop (lines 537-551). -/
def processedVars (d : Domain) (genes : List Gene) (replace : Bool) (tdb : String) :
    List Variable :=
  processGenes tdb replace (domainVars d) genes

/-- The features of the copied domain after the gene loop. -/
def processedAttrs (d : Domain) (genes : List Gene) (replace : Bool) (tdb : String) :
    List Variable :=
  (processedVars d genes replace tdb).take d.attributes.length

/-- Lines 554-556: `selected`, the features whose target-database attribute
is among the selected Entrez ids. -/
def selectedAttrs (tdb : String) (selected_genes : List String)
    (attrsP : List Variable) : List Variable :=
  attrsP.filter (fun col =>
    match lookupAttr col.attrs tdb with
    | some id => id ∈ selected_genes
    | none => false)

/-- Lines 558-561: `output_attrs`, the selection when non-empty, else all
features. -/
def outputAttrs (tdb : String) (selected_genes : List String)
    (attrsP : List Variable) : List Variable :=
  if (selectedAttrs tdb selected_genes attrsP).isEmpty then attrsP
  else selectedAttrs tdb selected_genes attrsP

/-- The genes-as-columns branch of `commit`: copy the domain, run the gene
loop over all its variables, restrict the features to the view selection when
one matches, then apply the exclude-unmatched filter (which can raise,
giving `none`). -/
def commit_cols (d : Domain) (genes : List Gene) (selected_genes known : List String)
    (exclude replace : Bool) (organism tdb : String) : Option OutTable :=
  match (if exclude then
           excludeFilter tdb known
             (outputAttrs tdb selected_genes (processedAttrs d genes replace tdb))
         else
           some (outputAttrs tdb selected_genes (processedAttrs d genes replace tdb))) with
  | none => none
  | some outA =>
    some { domain :=
             ⟨outA,
              ((processedVars d genes replace tdb).drop d.attributes.length).take
                d.class_vars.length,
              (processedVars d genes replace tdb).drop
                (d.attributes.length + d.class_vars.length)⟩
           geneColVals := []
           tax_id := organism
           gene_as_attr_name := true
           gene_id_column := none
           gene_id_attribute := some tdb }

/-! ### commit (OWGenes.py lines 490-580)

With no known gene, both channels are sent `None`.  In the genes-as-rows
branch the data table is sent inside the branch (line 533) and again at the
end (line 579), so it appears twice.  An uncaught exception inside `commit`
is modelled as `none`: nothing is emitted. -/

/-- Line 577: the match-report table, restricted to the view selection when
one exists (`selected_genes if selected_genes else None`). -/
def commitGM (genes : List Gene) (selected_genes : List String) : GMTable :=
  to_data_table genes
    (if selected_genes.isEmpty then none else some selected_genes)

/-- `OWGenes.commit` as the list of sends it performs. -/
def commit (use_attr_names : Bool) (d : Domain) (nrows : Nat) (genes : List Gene)
    (selected_genes : List String) (exclude replace : Bool) (organism tdb : String) :
    Option (List Emission) :=
  if (knownGenes genes).isEmpty then
    some [Emission.dataOut none, Emission.genesOut none]
  else if use_attr_names then
    match commit_cols d genes selected_genes (knownGenes genes) exclude replace
            organism tdb with
    | none => none
    | some t => some [Emission.dataOut (some t),
                      Emission.genesOut (some (commitGM genes selected_genes))]
  else
    match commit_rows d nrows (get_target_ids genes) selected_genes
            (knownGenes genes) exclude organism tdb with
    | none => none
    | some t => some [Emission.dataOut (some t), Emission.dataOut (some t),
                      Emission.genesOut (some (commitGM genes selected_genes))]

/-! ### The display models (OWGenes.py lines 62-65 and 143-145) -/

/-- `GeneInfoModel.initialize`: the genes rendered as rows of the matched
table are those with an `ncbi_id`. -/
def matched_table_genes (genes : List Gene) : List Gene :=
  genes.filter (fun g => g.ncbi_id.isSome)

/-- `UnknownGeneInfoModel.initialize`: the input names joined into the
unknown-genes row are those of the genes without an `ncbi_id`. -/
def unknown_gene_names (genes : List Gene) : List String :=
  (genes.filter (fun g => !g.ncbi_id.isSome)).map Gene.input_name

/-- The single row the unknown model wraps:
`', '.join(...)` over `unknown_gene_names`. -/
def unknown_row (genes : List Gene) : String :=
  String.intercalate ", " (unknown_gene_names genes)

/-! ### toggle_radio_options (OWGenes.py lines 582-588) -/

/-- Modelled from the spec: `GeneMatcher.get_known_genes` (external matcher
component, not part of this file) returns the genes that were resolved to an
Entrez id. -/
def get_known_genes (genes : List Gene) : List Gene :=
  genes.filter (fun g => g.ncbi_id.isSome)

/-- `OWGenes.toggle_radio_options`, restricted to the `exclude_unmatched`
setting it writes: when the matcher's gene list is non-empty the setting
becomes `len(genes) != len(known)`; otherwise it keeps its previous value. -/
def toggle_radio_options (genes : List Gene) (exclude_prev : Bool) : Bool :=
  if !genes.isEmpty then
    decide (genes.length ≠ (get_known_genes genes).length)
  else exclude_prev

/-! ### handle_input tax id (OWGenes.py lines 478-479) -/

/-- A Python value stored in the table's `attributes` dict. -/
inductive PyVal where
  | str (s : String)
  | int (n : Int)
deriving DecidableEq, Repr

/-- Python `str(...)` on such a value. -/
def pyStr (v : PyVal) : String :=
  match v with
  | PyVal.str s => s
  | PyVal.int n => toString n

/-- Python `dict.get(k, default)`. -/
def dictGetD (ps : List (String × PyVal)) (k : String) (dflt : PyVal) : PyVal :=
  match ps.find? (fun p => p.1 = k) with
  | some p => p.2
  | none => dflt

/-- `OWGenes.handle_input`, restricted to the tax-id assignment:
`self.tax_id = str(self.input_data.attributes.get(TAX_ID, '9606'))`, executed
only when the input table is truthy (non-empty); otherwise `tax_id` keeps its
previous value. -/
def handle_input_tax_id (prev : Option String) (data : Option (List (String × PyVal)))
    (tax_key : String) : Option String :=
  match data with
  | none => prev
  | some tattrs => some (pyStr (dictGetD tattrs tax_key (PyVal.str "9606")))

/-- The side condition under which the gene loop of `commit` is
interference-free: no gene's symbol coincides with the input name of any gene
(a rename can then never capture a lookup of a later gene). -/
def symClear (genes : List Gene) : Bool :=
  genes.all (fun g =>
    match g.symbol with
    | some s => genes.all (fun g2 => s ≠ g2.input_name)
    | none => true)

/-! ### Concrete fixtures used by the witness and counterexample theorems -/

/-- A one-feature input domain. -/
def exD : Domain := ⟨[⟨"g1", VarType.continuous, []⟩], [], []⟩

/-- A matcher result with one matched gene (with a symbol) and one unmatched
gene. -/
def exGenes : List Gene := [⟨"g1", some "5561", some "S1"⟩, ⟨"g2", none, none⟩]

/-- The Data output of `commit` on `exD`/`exGenes` in genes-as-columns
orientation with exclude-unmatched and replace-id-with-symbol on. -/
def exColsT : OutTable :=
  ⟨⟨[⟨"S1", VarType.continuous, [("Entrez ID", "5561")]⟩], [], []⟩, [],
    "9606", true, none, some "Entrez ID"⟩

/-- The Data output of `commit` on `exD`/`exGenes` in genes-as-rows
orientation with exclude-unmatched on. -/
def exRowsT : OutTable :=
  ⟨⟨[⟨"g1", VarType.continuous, []⟩], [], [⟨"Entrez ID", VarType.string, []⟩]⟩,
    ["5561"], "9606", false, some "Entrez ID", none⟩

/-- An input domain that already carries a discrete feature named like the
target database. -/
def cexD : Domain := ⟨[⟨"Entrez ID", VarType.discrete, []⟩], [], []⟩

/-- One matched gene without a symbol. -/
def cexGenes : List Gene := [⟨"g", some "5", none⟩]

/-- The Data output of `commit` on `cexD`/`cexGenes` in genes-as-rows
orientation: the gene ids land in the pre-existing discrete feature and the
metas stay empty. -/
def cexT : OutTable :=
  ⟨⟨[⟨"Entrez ID", VarType.discrete, []⟩], [], []⟩, ["5"], "9606", false,
    some "Entrez ID", none⟩

/-- Invariant of the gene loop: as long as the genes of `gs` are still to be
processed, lookup of their input names in the current variable list `W` agrees
with lookup in the original list `V`, and the variables they resolve to are
still untouched. -/
def MatchInv (V W : List Variable) (gs : List Gene) : Prop :=
  ∀ g ∈ gs, findName g.input_name W = findName g.input_name V ∧
    ∀ i, findName g.input_name V = some i → W[i]? = V[i]?

/-! ## Helper lemmas -/

lemma find?_map_set (k v : String) :
    ∀ ps : List (String × String), ps.any (fun p => p.1 = k) = true →
      (ps.map (fun p => if p.1 = k then (k, v) else p)).find? (fun p => p.1 = k)
        = some (k, v) := by
  intro ps
  induction ps with
  | nil => intro h; simp at h
  | cons p ps ih =>
    intro h
    by_cases hp : p.1 = k
    · simp [hp]
    · have htail : ps.any (fun p => p.1 = k) = true := by
        simp only [List.any_cons, Bool.or_eq_true, decide_eq_true_eq] at h
        rcases h with h | h
        · exact absurd h hp
        · exact h
      rw [List.map_cons, if_neg hp, List.find?_cons_of_neg _ (by simpa using hp)]
      exact ih htail

lemma find?_append_fresh (k v : String) :
    ∀ ps : List (String × String), ps.any (fun p => p.1 = k) = false →
      (ps ++ [(k, v)]).find? (fun p => p.1 = k) = some (k, v) := by
  intro ps
  induction ps with
  | nil => intro _; simp
  | cons p ps ih =>
    intro h
    simp only [List.any_cons, Bool.or_eq_false_iff, decide_eq_false_iff_not] at h
    rw [List.cons_append, List.find?_cons_of_neg _ (by simpa using h.1)]
    exact ih (by simpa using h.2)

lemma lookupAttr_setAttr (k v : String) (ps : List (String × String)) :
    lookupAttr (setAttr ps k v) k = some v := by
  unfold setAttr lookupAttr
  cases h : ps.any (fun p => p.1 = k) with
  | true => simp [find?_map_set k v ps h]
  | false => simp [find?_append_fresh k v ps h]

lemma applyGene_attrs (tdb : String) (replace : Bool) (g : Gene) (v : Variable) :
    (applyGene tdb replace g v).attrs = setAttr v.attrs tdb (geneTargetId g) := by
  rcases hs : g.symbol with _ | s <;> cases replace <;> simp [applyGene, hs]

lemma applyGene_name (tdb : String) (replace : Bool) (g : Gene) (v : Variable) :
    (applyGene tdb replace g v).name = v.name ∨
      g.symbol = some ((applyGene tdb replace g v).name) := by
  rcases hs : g.symbol with _ | s <;> cases replace <;> simp [applyGene, hs]

lemma applyGene_name_symbol (tdb : String) (g : Gene) (v : Variable) (s : String)
    (hs : g.symbol = some s) : (applyGene tdb true g v).name = s := by
  simp [applyGene, hs]

lemma modifyAt_getElem? (f : Variable → Variable) :
    ∀ (l : List Variable) (i0 i : Nat),
      (modifyAt f i0 l)[i]? = if i = i0 then (l[i]?).map f else l[i]? := by
  intro l
  induction l with
  | nil => intro i0 i; cases i0 <;> simp [modifyAt]
  | cons v vs ih =>
    intro i0 i
    cases i0 with
    | zero =>
      cases i with
      | zero => simp [modifyAt]
      | succ j => simp [modifyAt]
    | succ n =>
      cases i with
      | zero => simp [modifyAt]
      | succ j =>
        simp only [modifyAt, List.getElem?_cons_succ, ih n j]
        by_cases hj : j = n
        · simp [hj]
        · rw [if_neg hj, if_neg (by omega)]

lemma findName_some_name (nm : String) :
    ∀ (l : List Variable) (i : Nat), findName nm l = some i →
      ∃ v, l[i]? = some v ∧ v.name = nm := by
  intro l
  induction l with
  | nil => intro i h; simp [findName] at h
  | cons v vs ih =>
    intro i h
    by_cases hv : v.name = nm
    · simp only [findName, if_pos hv, Option.some.injEq] at h
      subst h
      exact ⟨v, by simp, hv⟩
    · simp only [findName, if_neg hv, Option.map_eq_some'] at h
      rcases h with ⟨j, hj, hij⟩
      subst hij
      rcases ih j hj with ⟨v2, hv2, hname⟩
      exact ⟨v2, by simpa using hv2, hname⟩

lemma findName_modifyAt (nm : String) (f : Variable → Variable) :
    ∀ (l : List Variable) (i0 : Nat),
      (∀ v0, l[i0]? = some v0 → v0.name ≠ nm ∧ (f v0).name ≠ nm) →
      findName nm (modifyAt f i0 l) = findName nm l := by
  intro l
  induction l with
  | nil => intro i0 _; cases i0 <;> rfl
  | cons v vs ih =>
    intro i0 hcond
    cases i0 with
    | zero =>
      have hv := hcond v (by simp)
      simp [modifyAt, findName, hv.1, hv.2]
    | succ n =>
      have hrec := ih n (fun v0 h0 => hcond v0 (by simpa using h0))
      by_cases hv : v.name = nm
      · simp [modifyAt, findName, hv]
      · simp [modifyAt, findName, hv, hrec]

lemma filter_map_cells (cs : List (Option String)) :
    (cs.filter (fun c => !np_isnan c)).map pyStrCell = cs.filterMap id := by
  induction cs with
  | nil => rfl
  | cons c cs ih =>
    cases c with
    | none => simpa [np_isnan, pyStrCell] using ih
    | some s => simpa [np_isnan, pyStrCell] using ih

lemma inv_step (tdb : String) (replace : Bool) (V W : List Variable) (g0 : Gene)
    (gs : List Gene)
    (hinv : MatchInv V W (g0 :: gs))
    (hnd : ∀ g ∈ gs, g.input_name ≠ g0.input_name)
    (hsym : ∀ s, g0.symbol = some s → ∀ g ∈ gs, s ≠ g.input_name) :
    MatchInv V (processGene tdb replace W g0) gs := by
  intro g hg
  have hgtail := hinv g (List.mem_cons_of_mem _ hg)
  have hg0 := hinv g0 (List.mem_cons_self _ _)
  unfold processGene
  cases hW : findName g0.input_name W with
  | none => exact hgtail
  | some j =>
    have hV0 : findName g0.input_name V = some j := by rw [← hg0.1, hW]
    obtain ⟨vj, hvj, hvjname⟩ := findName_some_name g0.input_name W j hW
    constructor
    · rw [findName_modifyAt]
      · exact hgtail.1
      · intro v0 h0
        rw [hvj] at h0
        injection h0 with h0
        subst h0
        constructor
        · rw [hvjname]
          exact fun hcon => hnd g hg hcon.symm
        · rcases applyGene_name tdb replace g0 vj with hn | hn
          · rw [hn, hvjname]
            exact fun hcon => hnd g hg hcon.symm
          · intro hcon
            rw [hcon] at hn
            exact hsym g.input_name hn g hg rfl
    · intro i hi
      have hne : i ≠ j := by
        obtain ⟨vi, hvi, hviname⟩ := findName_some_name g.input_name V i hi
        obtain ⟨vj2, hvj2, hvj2name⟩ := findName_some_name g0.input_name V j hV0
        intro hij
        subst hij
        rw [hvi] at hvj2
        injection hvj2 with he
        subst he
        exact hnd g hg (by rw [← hviname, ← hvj2name])
      rw [modifyAt_getElem?, if_neg hne]
      exact hgtail.2 i hi

lemma processGenes_avoid (tdb : String) (replace : Bool) :
    ∀ (gs : List Gene) (V W : List Variable) (i : Nat),
      MatchInv V W gs →
      gs.Pairwise (fun a b => a.input_name ≠ b.input_name) →
      (∀ g ∈ gs, ∀ s, g.symbol = some s → ∀ g2 ∈ gs, s ≠ g2.input_name) →
      (∀ g ∈ gs, findName g.input_name V ≠ some i) →
      (processGenes tdb replace W gs)[i]? = W[i]? := by
  intro gs
  induction gs with
  | nil => intro V W i _ _ _ _; rfl
  | cons g0 gs ih =>
    intro V W i hinv hpw hsym havoid
    rcases List.pairwise_cons.mp hpw with ⟨hhead, htail⟩
    have hstep : MatchInv V (processGene tdb replace W g0) gs :=
      inv_step tdb replace V W g0 gs hinv
        (fun g hg he => hhead g hg he.symm)
        (fun s hs g hg =>
          hsym g0 (List.mem_cons_self _ _) s hs g (List.mem_cons_of_mem _ hg))
    have hrest := ih V (processGene tdb replace W g0) i hstep htail
      (fun g hg s hs g2 hg2 =>
        hsym g (List.mem_cons_of_mem _ hg) s hs g2 (List.mem_cons_of_mem _ hg2))
      (fun g hg => havoid g (List.mem_cons_of_mem _ hg))
    have hfold : processGenes tdb replace W (g0 :: gs)
        = processGenes tdb replace (processGene tdb replace W g0) gs := rfl
    rw [hfold, hrest]
    unfold processGene
    cases hW : findName g0.input_name W with
    | none => rfl
    | some j =>
      have hV0 : findName g0.input_name V = some j := by
        rw [← (hinv g0 (List.mem_cons_self _ _)).1, hW]
      have hji : i ≠ j :=
        fun he => havoid g0 (List.mem_cons_self _ _) (he ▸ hV0)
      rw [modifyAt_getElem?, if_neg hji]

lemma processGenes_spec (tdb : String) (replace : Bool) :
    ∀ (gs : List Gene) (V W : List Variable),
      MatchInv V W gs →
      gs.Pairwise (fun a b => a.input_name ≠ b.input_name) →
      (∀ g ∈ gs, ∀ s, g.symbol = some s → ∀ g2 ∈ gs, s ≠ g2.input_name) →
      ∀ g ∈ gs, ∀ i, findName g.input_name V = some i →
        (processGenes tdb replace W gs)[i]? = (V[i]?).map (applyGene tdb replace g) := by
  intro gs
  induction gs with
  | nil => intro V W _ _ _ g hg; cases hg
  | cons g0 gs ih =>
    intro V W hinv hpw hsym g hg i hi
    rcases List.pairwise_cons.mp hpw with ⟨hhead, htail⟩
    have hstep : MatchInv V (processGene tdb replace W g0) gs :=
      inv_step tdb replace V W g0 gs hinv
        (fun g2 hg2 he => hhead g2 hg2 he.symm)
        (fun s hs g2 hg2 =>
          hsym g0 (List.mem_cons_self _ _) s hs g2 (List.mem_cons_of_mem _ hg2))
    have hsymtail : ∀ g2 ∈ gs, ∀ s, g2.symbol = some s → ∀ g3 ∈ gs, s ≠ g3.input_name :=
      fun g2 hg2 s hs g3 hg3 =>
        hsym g2 (List.mem_cons_of_mem _ hg2) s hs g3 (List.mem_cons_of_mem _ hg3)
    have hfold : processGenes tdb replace W (g0 :: gs)
        = processGenes tdb replace (processGene tdb replace W g0) gs := rfl
    rcases List.mem_cons.mp hg with rfl | hgtail
    · have hW : findName g.input_name W = some i := by
        rw [(hinv g (List.mem_cons_self _ _)).1]
        exact hi
      have havoid : ∀ g2 ∈ gs, findName g2.input_name V ≠ some i := by
        intro g2 hg2 hcon
        obtain ⟨vi, hvi, hviname⟩ := findName_some_name g.input_name V i hi
        obtain ⟨vi2, hvi2, hvi2name⟩ := findName_some_name g2.input_name V i hcon
        rw [hvi] at hvi2
        injection hvi2 with he
        subst he
        exact hhead g2 hg2 (by rw [← hviname, ← hvi2name])
      have hrest := processGenes_avoid tdb replace gs V
        (processGene tdb replace W g) i hstep htail hsymtail havoid
      rw [hfold, hrest]
      unfold processGene
      rw [hW, modifyAt_getElem?, if_pos rfl]
      rw [(hinv g (List.mem_cons_self _ _)).2 i hi]
    · rw [hfold]
      exact ih V (processGene tdb replace W g0) hstep htail hsymtail g hgtail i hi

lemma processGenes_at (tdb : String) (replace : Bool) (V : List Variable)
    (gs : List Gene)
    (hpw : gs.Pairwise (fun a b => a.input_name ≠ b.input_name))
    (hsym : ∀ g ∈ gs, ∀ s, g.symbol = some s → ∀ g2 ∈ gs, s ≠ g2.input_name)
    (g : Gene) (hg : g ∈ gs) (i : Nat)
    (hi : findName g.input_name V = some i) :
    (processGenes tdb replace V gs)[i]? = (V[i]?).map (applyGene tdb replace g) :=
  processGenes_spec tdb replace gs V V
    (fun _ _ => ⟨rfl, fun _ _ => rfl⟩) hpw hsym g hg i hi

lemma excludeFilter_mem (tdb : String) (known : List String) :
    ∀ (vs out : List Variable), excludeFilter tdb known vs = some out →
      ∀ v ∈ out, v ∈ vs ∧ ∃ id, lookupAttr v.attrs tdb = some id ∧ id ∈ known := by
  intro vs
  induction vs with
  | nil =>
    intro out h v hv
    unfold excludeFilter at h
    injection h with h
    subst h
    cases hv
  | cons v0 vs ih =>
    intro out h v hv
    unfold excludeFilter at h
    cases hl : lookupAttr v0.attrs tdb with
    | none => rw [hl] at h; cases h
    | some id0 =>
      rw [hl] at h
      cases hr : excludeFilter tdb known vs with
      | none => rw [hr] at h; cases h
      | some rest =>
        rw [hr] at h
        injection h with h
        subst h
        by_cases hid : id0 ∈ known
        · rw [if_pos hid] at hv
          rcases List.mem_cons.mp hv with rfl | hv2
          · exact ⟨List.mem_cons_self _ _, id0, hl, hid⟩
          · rcases ih rest hr v hv2 with ⟨hm, hrec⟩
            exact ⟨List.mem_cons_of_mem _ hm, hrec⟩
        · rw [if_neg hid] at hv
          rcases ih rest hr v hv with ⟨hm, hrec⟩
          exact ⟨List.mem_cons_of_mem _ hm, hrec⟩

lemma mem_knownGenes (genes : List Gene) (x : String) (hx : x ∈ knownGenes genes) :
    x ∈ get_target_ids genes ∧ x ≠ "?" := by
  unfold knownGenes at hx
  have h := List.mem_filter.mp hx
  exact ⟨h.1, by simpa using h.2⟩

lemma rowsAfterSelection_subset (gene_ids sel : List String) :
    ∀ x ∈ rowsAfterSelection gene_ids sel, x ∈ gene_ids := by
  intro x hx
  unfold rowsAfterSelection at hx
  by_cases he : (rowsSelected gene_ids sel).isEmpty
  · rw [if_pos he] at hx
    exact hx
  · rw [if_neg he] at hx
    exact (List.mem_filter.mp hx).1

lemma rowsFinal_subset (gene_ids sel known : List String) (excl : Bool) :
    ∀ x ∈ rowsFinal gene_ids sel known excl, x ∈ gene_ids := by
  intro x hx
  unfold rowsFinal at hx
  by_cases hexcl : excl = true
  · rw [if_pos hexcl] at hx
    exact rowsAfterSelection_subset gene_ids sel x (List.mem_filter.mp hx).1
  · rw [if_neg hexcl] at hx
    exact rowsAfterSelection_subset gene_ids sel x hx

lemma rowsFinal_known (gene_ids sel known : List String) :
    ∀ x ∈ rowsFinal gene_ids sel known true, x ∈ known := by
  intro x hx
  unfold rowsFinal at hx
  rw [if_pos rfl] at hx
  simpa using (List.mem_filter.mp hx).2

lemma commit_rows_inv (d : Domain) (nrows : Nat) (gene_ids sel known : List String)
    (excl : Bool) (org tdb : String) (t : OutTable)
    (h : commit_rows d nrows gene_ids sel known excl org tdb = some t) :
    t.tax_id = org ∧ t.gene_as_attr_name = false ∧ t.gene_id_column = some tdb ∧
    t.domain.attributes = d.attributes ∧ t.domain.class_vars = d.class_vars ∧
    t.domain.metas = rowsGeneVarMetas d tdb ∧
    t.geneColVals = rowsFinal gene_ids sel known excl := by
  unfold commit_rows at h
  by_cases hlen : gene_ids.length = nrows
  · rw [if_pos hlen] at h
    injection h with h
    subst h
    exact ⟨rfl, rfl, rfl, rfl, rfl, rfl, rfl⟩
  · rw [if_neg hlen] at h
    cases h

lemma rowsGeneVarMetas_fresh (d : Domain) (tdb : String)
    (h : (domainVars d).find? (fun v => v.name = tdb) = none) :
    rowsGeneVarMetas d tdb = d.metas ++ [⟨tdb, VarType.string, []⟩] := by
  unfold rowsGeneVarMetas
  rw [h]

lemma outputAttrs_subset (tdb : String) (sel : List String) (attrsP : List Variable) :
    ∀ v ∈ outputAttrs tdb sel attrsP, v ∈ attrsP := by
  intro v hv
  unfold outputAttrs at hv
  by_cases he : (selectedAttrs tdb sel attrsP).isEmpty
  · rw [if_pos he] at hv
    exact hv
  · rw [if_neg he] at hv
    exact (List.mem_filter.mp hv).1

lemma commit_cols_inv (d : Domain) (genes : List Gene) (sel known : List String)
    (excl repl : Bool) (org tdb : String) (t : OutTable)
    (h : commit_cols d genes sel known excl repl org tdb = some t) :
    t.tax_id = org ∧ t.gene_as_attr_name = true ∧ t.gene_id_attribute = some tdb ∧
    (∀ v ∈ t.domain.attributes, v ∈ processedAttrs d genes repl tdb) ∧
    (excl = true → ∀ v ∈ t.domain.attributes,
       ∃ id, lookupAttr v.attrs tdb = some id ∧ id ∈ known) := by
  unfold commit_cols at h
  by_cases hexcl : excl = true
  · rw [if_pos hexcl] at h
    cases hx : excludeFilter tdb known
        (outputAttrs tdb sel (processedAttrs d genes repl tdb)) with
    | none => rw [hx] at h; cases h
    | some outA =>
      rw [hx] at h
      injection h with h
      subst h
      have hmem := excludeFilter_mem tdb known _ outA hx
      refine ⟨rfl, rfl, rfl, ?_, ?_⟩
      · exact fun v hv => outputAttrs_subset _ _ _ v (hmem v hv).1
      · exact fun _ v hv => (hmem v hv).2
  · rw [if_neg hexcl] at h
    injection h with h
    subst h
    refine ⟨rfl, rfl, rfl, ?_, ?_⟩
    · exact fun v hv => outputAttrs_subset _ _ _ v hv
    · exact fun hcon => absurd hcon hexcl

lemma commit_dataOut_inv (uan : Bool) (d : Domain) (nrows : Nat) (genes : List Gene)
    (sel : List String) (excl repl : Bool) (org tdb : String)
    (ems : List Emission) (t : OutTable)
    (hc : commit uan d nrows genes sel excl repl org tdb = some ems)
    (ht : Emission.dataOut (some t) ∈ ems) :
    (uan = true ∧
       commit_cols d genes sel (knownGenes genes) excl repl org tdb = some t) ∨
    (uan = false ∧
       commit_rows d nrows (get_target_ids genes) sel (knownGenes genes) excl
         org tdb = some t) := by
  unfold commit at hc
  by_cases hk : (knownGenes genes).isEmpty
  · rw [if_pos hk] at hc
    injection hc with hc
    subst hc
    simp at ht
  · rw [if_neg hk] at hc
    by_cases huan : uan = true
    · rw [if_pos huan] at hc
      cases hcc : commit_cols d genes sel (knownGenes genes) excl repl org tdb with
      | none => rw [hcc] at hc; cases hc
      | some t0 =>
        rw [hcc] at hc
        injection hc with hc
        subst hc
        have ht0 : t = t0 := by simpa using ht
        refine Or.inl ⟨huan, ?_⟩
        rw [ht0]
    · rw [if_neg huan] at hc
      cases hcr : commit_rows d nrows (get_target_ids genes) sel (knownGenes genes)
          excl org tdb with
      | none => rw [hcr] at hc; cases hc
      | some t0 =>
        rw [hcr] at hc
        injection hc with hc
        subst hc
        have ht0 : t = t0 := by simpa using ht
        refine Or.inr ⟨Bool.not_eq_true uan ▸ huan, ?_⟩
        rw [ht0]

lemma symClear_spec (genes : List Gene) (h : symClear genes = true) :
    ∀ g ∈ genes, ∀ s, g.symbol = some s → ∀ g2 ∈ genes, s ≠ g2.input_name := by
  intro g hg s hs g2 hg2
  unfold symClear at h
  have h1 := List.all_eq_true.mp h g hg
  rw [hs] at h1
  have h2 := List.all_eq_true.mp h1 g2 hg2
  simpa using h2

lemma nodup_input_names (genes : List Gene)
    (h : (genes.map Gene.input_name).Nodup) :
    genes.Pairwise (fun a b => a.input_name ≠ b.input_name) := by
  rw [List.Nodup, List.pairwise_map] at h
  exact h

/-! ## C5 -/

/-- C5: `gene_names_from_table` extracts the input gene names according to
the input convention: with `use_attr_names` it returns the stripped name of
every attribute of the input domain, and otherwise it returns the string
value of the selected gene column on every row whose value in that column is
not missing (and with no input it returns the empty list). -/
theorem c5_gene_names_extraction (ns : List String) (cs : List (Option String)) :
    gene_names_from_table (some ⟨ns, cs⟩) true = ns.map (fun s => s.trim) ∧
    gene_names_from_table (some ⟨ns, cs⟩) false = cs.filterMap id ∧
    gene_names_from_table none true = [] ∧
    gene_names_from_table none false = [] := by
  refine ⟨rfl, ?_, rfl, rfl⟩
  simpa [gene_names_from_table] using filter_map_cells cs

/-! ## C7 -/

/-- C7, counterexample: a completed match run over an empty gene list leaves
`exclude_unmatched` at its previous value (here `true`) even though the
number of known genes is not strictly less than the number of input genes,
contradicting the claim that the setting is overwritten to the value of that
comparison after every run. -/
theorem c7_counterexample :
    toggle_radio_options [] true = true ∧
    ¬ ((get_known_genes ([] : List Gene)).length < ([] : List Gene).length) := by
  exact ⟨rfl, by decide⟩

/-- C7, amended: whenever the matcher's gene list is non-empty,
`toggle_radio_options` overwrites `exclude_unmatched` so that it is true if
and only if the number of known genes is strictly less than the number of
input genes, regardless of the previous value; with an empty gene list the
previous value is kept. -/
theorem c7_toggle_overwrites_exclude (genes : List Gene) (prev : Bool)
    (h : genes ≠ []) :
    toggle_radio_options genes prev
      = decide ((get_known_genes genes).length < genes.length) := by
  have hne : genes.isEmpty = false := by
    cases genes with
    | nil => exact absurd rfl h
    | cons a l => rfl
  have hle : (get_known_genes genes).length ≤ genes.length :=
    List.length_filter_le _ _
  unfold toggle_radio_options
  rw [hne]
  simp only [Bool.not_false, if_pos]
  rw [decide_eq_decide]
  omega

/-- C7, witness for the amended theorem at a concrete two-gene run with one
match and a previously-false setting. -/
theorem c7_toggle_witness :
    ([Gene.mk "a" (some "1") none, Gene.mk "b" none none] ≠ ([] : List Gene)) ∧
    toggle_radio_options [Gene.mk "a" (some "1") none, Gene.mk "b" none none] false
      = decide ((get_known_genes
          [Gene.mk "a" (some "1") none, Gene.mk "b" none none]).length
            < ([Gene.mk "a" (some "1") none, Gene.mk "b" none none] : List Gene).length) :=
  ⟨by decide,
   c7_toggle_overwrites_exclude
     [Gene.mk "a" (some "1") none, Gene.mk "b" none none] false (by decide)⟩

/-! ## C8 -/

/-- C8: after a match run the two display models partition the matcher's
genes: a gene is rendered in the matched table if and only if it has an
`ncbi_id`, its input name appears in the unknown-genes list if and only if it
has none (input names being distinct), and no gene appears in both views. -/
theorem c8_models_partition (genes : List Gene) (g : Gene)
    (hnd : (genes.map Gene.input_name).Nodup) (hg : g ∈ genes) :
    (g ∈ matched_table_genes genes ↔ g.ncbi_id.isSome) ∧
    (g.input_name ∈ unknown_gene_names genes ↔ ¬ g.ncbi_id.isSome) ∧
    ¬ (g ∈ matched_table_genes genes ∧ g.input_name ∈ unknown_gene_names genes) := by
  have h1 : g ∈ matched_table_genes genes ↔ g.ncbi_id.isSome := by
    simp [matched_table_genes, List.mem_filter, hg]
  have h2 : g.input_name ∈ unknown_gene_names genes ↔ ¬ g.ncbi_id.isSome := by
    constructor
    · intro hmem
      rcases List.mem_map.mp hmem with ⟨g2, hg2, hname⟩
      rcases List.mem_filter.mp hg2 with ⟨hg2m, hp⟩
      have : g2 = g := List.inj_on_of_nodup_map hnd hg2m hg hname
      subst this
      simpa using hp
    · intro hnot
      apply List.mem_map.mpr
      refine ⟨g, List.mem_filter.mpr ⟨hg, ?_⟩, rfl⟩
      simpa using hnot
  exact ⟨h1, h2, fun ⟨ha, hb⟩ => (h2.mp hb) (h1.mp ha)⟩

/-- C8, witness at a concrete two-gene list with one matched gene. -/
theorem c8_models_partition_witness :
    (([Gene.mk "a" (some "1") none, Gene.mk "b" none none].map Gene.input_name).Nodup) ∧
    (Gene.mk "a" (some "1") none ∈ [Gene.mk "a" (some "1") none, Gene.mk "b" none none]) ∧
    ((Gene.mk "a" (some "1") none
        ∈ matched_table_genes [Gene.mk "a" (some "1") none, Gene.mk "b" none none]
      ↔ (Gene.mk "a" (some "1") none).ncbi_id.isSome) ∧
     ((Gene.mk "a" (some "1") none).input_name
        ∈ unknown_gene_names [Gene.mk "a" (some "1") none, Gene.mk "b" none none]
      ↔ ¬ (Gene.mk "a" (some "1") none).ncbi_id.isSome) ∧
     ¬ (Gene.mk "a" (some "1") none
          ∈ matched_table_genes [Gene.mk "a" (some "1") none, Gene.mk "b" none none]
        ∧ (Gene.mk "a" (some "1") none).input_name
            ∈ unknown_gene_names [Gene.mk "a" (some "1") none, Gene.mk "b" none none])) :=
  ⟨by decide, by decide,
   c8_models_partition [Gene.mk "a" (some "1") none, Gene.mk "b" none none]
     (Gene.mk "a" (some "1") none) (by decide) (by decide)⟩

/-! ## C9 -/

/-- C9: on a truthy (non-empty) input table whose attributes dictionary has
no taxonomy-id entry, `handle_input` sets the taxonomy id to the string
`9606`. -/
theorem c9_default_tax_id (prev : Option String) (tattrs : List (String × PyVal))
    (tax_key : String) (h : ∀ p ∈ tattrs, p.1 ≠ tax_key) :
    handle_input_tax_id prev (some tattrs) tax_key = some "9606" := by
  have hf : tattrs.find? (fun p => p.1 = tax_key) = none := by
    rw [List.find?_eq_none]
    intro p hp
    simpa using h p hp
  simp [handle_input_tax_id, dictGetD, hf, pyStr]

/-- C9, witness at a concrete table-attributes dictionary without the
taxonomy key. -/
theorem c9_default_tax_id_witness :
    (∀ p ∈ [("other", PyVal.int 3)], p.1 ≠ "tax_id") ∧
    handle_input_tax_id none (some [("other", PyVal.int 3)]) "tax_id" = some "9606" :=
  ⟨by decide, c9_default_tax_id none [("other", PyVal.int 3)] "tax_id" (by decide)⟩

/-! ## C1 -/

lemma pairwise_getLast_max :
    ∀ (l : List (Variable × Nat)) (m : Variable × Nat),
      l.Pairwise (fun a b => a.2 ≤ b.2) → l.getLast? = some m →
      ∀ x ∈ l, x.2 ≤ m.2 := by
  intro l
  induction l with
  | nil => intro m _ hm; simp at hm
  | cons a t ih =>
    intro m hp hm x hx
    cases t with
    | nil =>
      simp only [List.getLast?_singleton, Option.some.injEq] at hm
      subst hm
      rcases List.mem_singleton.mp hx with rfl
      exact Nat.le_refl _
    | cons b t2 =>
      rw [List.getLast?_cons_cons] at hm
      rcases List.pairwise_cons.mp hp with ⟨hhead, htail⟩
      rcases List.mem_cons.mp hx with rfl | hx2
      · have hmem : m ∈ b :: t2 := by
          rcases List.mem_getLast?_eq_getLast hm with ⟨hne, rfl⟩
          exact List.getLast_mem hne
        exact hhead m hmem
      · exact ih m htail hm x hx2

/-- C1: whenever the input domain yields at least one candidate column
(discrete or string), `gene_column_identifier` returns a candidate column
whose unique-value count is maximal among all candidates. -/
theorem c1_best_column_by_uniqueness (cols : List (Variable × List String))
    (h : colCandidates cols ≠ []) :
    ∃ v n, gene_column_identifier cols = some v ∧ (v, n) ∈ colCandidates cols ∧
      ∀ c ∈ colCandidates cols, c.2 ≤ n := by
  set cands := colCandidates cols with hcands
  set le : (Variable × Nat) → (Variable × Nat) → Bool :=
    fun a b => decide (a.2 ≤ b.2) with hle
  have hperm : (cands.mergeSort le).Perm cands := List.mergeSort_perm cands le
  have hsne : cands.mergeSort le ≠ [] := by
    intro hnil
    apply h
    have hlen : (cands.mergeSort le).length = cands.length :=
      List.length_mergeSort cands
    rw [hnil] at hlen
    exact List.eq_nil_of_length_eq_zero hlen.symm
  obtain ⟨m, hm⟩ : ∃ m, (cands.mergeSort le).getLast? = some m := by
    cases hl : (cands.mergeSort le).getLast? with
    | none => exact absurd (List.getLast?_eq_none_iff.mp hl) hsne
    | some m => exact ⟨m, rfl⟩
  have hsorted : (cands.mergeSort le).Pairwise (fun a b => a.2 ≤ b.2) := by
    have hs := @List.sorted_mergeSort _ le
      (fun a b c hab hbc => by
        simp only [hle, decide_eq_true_eq] at hab hbc ⊢
        exact Nat.le_trans hab hbc)
      (fun a b => by
        simp only [hle, Bool.or_eq_true, decide_eq_true_eq]
        exact Nat.le_total a.2 b.2)
      cands
    exact hs.imp (fun hab => by simpa [hle] using hab)
  refine ⟨m.1, m.2, ?_, ?_, ?_⟩
  · unfold gene_column_identifier
    rw [← hcands, ← hle, hm]
    rfl
  · exact hperm.mem_iff.mp (by
      rcases List.mem_getLast?_eq_getLast hm with ⟨hne, rfl⟩
      exact List.getLast_mem hne)
  · intro c hc
    exact pairwise_getLast_max _ m hsorted hm c (hperm.mem_iff.mpr hc)

/-- C1, witness: a model with a string column of two unique values, a
continuous (non-candidate) column and a discrete column of one unique value;
the string column is returned. -/
theorem c1_best_column_witness :
    (colCandidates
        [(Variable.mk "c1" VarType.string [], ["a", "b", "a"]),
         (Variable.mk "c2" VarType.continuous [], ["x"]),
         (Variable.mk "c3" VarType.discrete [], ["u"])] ≠ []) ∧
    (∃ v n, gene_column_identifier
        [(Variable.mk "c1" VarType.string [], ["a", "b", "a"]),
         (Variable.mk "c2" VarType.continuous [], ["x"]),
         (Variable.mk "c3" VarType.discrete [], ["u"])] = some v ∧
      (v, n) ∈ colCandidates
        [(Variable.mk "c1" VarType.string [], ["a", "b", "a"]),
         (Variable.mk "c2" VarType.continuous [], ["x"]),
         (Variable.mk "c3" VarType.discrete [], ["u"])] ∧
      ∀ c ∈ colCandidates
        [(Variable.mk "c1" VarType.string [], ["a", "b", "a"]),
         (Variable.mk "c2" VarType.continuous [], ["x"]),
         (Variable.mk "c3" VarType.discrete [], ["u"])], c.2 ≤ n) :=
  ⟨by decide,
   c1_best_column_by_uniqueness
     [(Variable.mk "c1" VarType.string [], ["a", "b", "a"]),
      (Variable.mk "c2" VarType.continuous [], ["x"]),
      (Variable.mk "c3" VarType.discrete [], ["u"])] (by decide)⟩

/-! ## C2 -/

/-- C2: a commit with exclude-unmatched on and at least one known gene emits
a Data table without unmatched genes: in genes-as-rows orientation every
gene-id value of the output is a known Entrez id (never `?`), and in
genes-as-columns orientation every output feature's target-database attribute
value is among the known gene ids. -/
theorem c2_exclude_unmatched_output (uan : Bool) (d : Domain) (nrows : Nat)
    (genes : List Gene) (sel : List String) (repl : Bool) (org tdb : String)
    (ems : List Emission) (t : OutTable)
    (hk : knownGenes genes ≠ [])
    (hc : commit uan d nrows genes sel true repl org tdb = some ems)
    (ht : Emission.dataOut (some t) ∈ ems) :
    (uan = false → ∀ x ∈ t.geneColVals, x ∈ knownGenes genes ∧ x ≠ "?") ∧
    (uan = true → ∀ v ∈ t.domain.attributes,
       ∃ id, lookupAttr v.attrs tdb = some id ∧
         id ∈ knownGenes genes ∧ id ≠ "?") := by
  rcases commit_dataOut_inv uan d nrows genes sel true repl org tdb ems t hc ht with
    ⟨huan, hcc⟩ | ⟨huan, hcr⟩
  · constructor
    · intro hfalse
      rw [huan] at hfalse
      cases hfalse
    · intro _ v hv
      obtain ⟨-, -, -, -, hexcl⟩ :=
        commit_cols_inv d genes sel (knownGenes genes) true repl org tdb t hcc
      obtain ⟨id, hid, hmem⟩ := hexcl rfl v hv
      exact ⟨id, hid, hmem, (mem_knownGenes genes id hmem).2⟩
  · constructor
    · intro _ x hx
      obtain ⟨-, -, -, -, -, -, hvals⟩ :=
        commit_rows_inv d nrows (get_target_ids genes) sel (knownGenes genes)
          true org tdb t hcr
      rw [hvals] at hx
      have hxk := rowsFinal_known (get_target_ids genes) sel (knownGenes genes) x hx
      exact ⟨hxk, (mem_knownGenes genes x hxk).2⟩
    · intro htrue
      rw [huan] at htrue
      cases htrue

/-- C2, witness: concrete genes-as-rows commit with one matched and one
unmatched gene; the output gene-id column is exactly the known id. -/
theorem c2_exclude_unmatched_witness :
    (knownGenes exGenes ≠ []) ∧
    (commit false exD 2 exGenes [] true true "9606" "Entrez ID"
      = some [Emission.dataOut (some exRowsT), Emission.dataOut (some exRowsT),
              Emission.genesOut (some (to_data_table exGenes none))]) ∧
    (Emission.dataOut (some exRowsT)
      ∈ [Emission.dataOut (some exRowsT), Emission.dataOut (some exRowsT),
         Emission.genesOut (some (to_data_table exGenes none))]) ∧
    ((false = false →
        ∀ x ∈ exRowsT.geneColVals, x ∈ knownGenes exGenes ∧ x ≠ "?") ∧
     (false = true →
        ∀ v ∈ exRowsT.domain.attributes,
          ∃ id, lookupAttr v.attrs "Entrez ID" = some id ∧
            id ∈ knownGenes exGenes ∧ id ≠ "?")) :=
  ⟨by decide, by decide, by decide,
   c2_exclude_unmatched_output false exD 2 exGenes [] true "9606" "Entrez ID"
     [Emission.dataOut (some exRowsT), Emission.dataOut (some exRowsT),
      Emission.genesOut (some (to_data_table exGenes none))]
     exRowsT (by decide) (by decide) (by decide)⟩

/-! ## C3 -/

/-- C3, counterexample: when the input domain already carries a (here
discrete, non-meta) variable named by the target database, the genes-as-rows
commit writes the Entrez ids into that existing column; the output table has
an empty metas list, so there is no string meta column named by the target
database, contradicting the claim. -/
theorem c3_counterexample :
    commit false cexD 1 cexGenes [] false false "9606" "Entrez ID"
      = some [Emission.dataOut (some cexT), Emission.dataOut (some cexT),
              Emission.genesOut (some (to_data_table cexGenes none))] ∧
    cexT.geneColVals = ["5"] ∧
    cexT.domain.metas = [] ∧
    cexT.gene_as_attr_name = false := by decide

/-- C3, amended: the commit output is built in exactly one of two
orientations selected by `use_attr_names`, and always carries `TAX_ID` set to
the selected organism.  Genes-as-rows: `GENE_AS_ATTRIBUTE_NAME` is `False`,
`GENE_ID_COLUMN` names the target database, the gene-id column holds the
Entrez ids, and the ids go to a fresh string meta column named by the target
database only when no input column already bears that name (otherwise the
existing column is reused).  Genes-as-columns: `GENE_AS_ATTRIBUTE_NAME` is
`True`, `GENE_ID_ATTRIBUTE` names the target database, every gene the loop
resolved carries its Entrez id in the target-database attribute of its
column, and the output features are drawn from those processed columns. -/
theorem c3_two_orientations (uan : Bool) (d : Domain) (nrows : Nat)
    (genes : List Gene) (sel : List String) (excl repl : Bool) (org tdb : String)
    (ems : List Emission) (t : OutTable)
    (hnd : (genes.map Gene.input_name).Nodup)
    (hsym : symClear genes = true)
    (hc : commit uan d nrows genes sel excl repl org tdb = some ems)
    (ht : Emission.dataOut (some t) ∈ ems) :
    t.tax_id = org ∧
    (uan = false →
       t.gene_as_attr_name = false ∧ t.gene_id_column = some tdb ∧
       ((domainVars d).find? (fun v => v.name = tdb) = none →
          t.domain.metas = d.metas ++ [⟨tdb, VarType.string, []⟩]) ∧
       ∀ x ∈ t.geneColVals, x ∈ get_target_ids genes) ∧
    (uan = true →
       t.gene_as_attr_name = true ∧ t.gene_id_attribute = some tdb ∧
       (∀ g ∈ genes, ∀ i, findName g.input_name (domainVars d) = some i →
          ∃ v, (processedVars d genes repl tdb)[i]? = some v ∧
            lookupAttr v.attrs tdb = some (geneTargetId g)) ∧
       ∀ v ∈ t.domain.attributes, v ∈ processedAttrs d genes repl tdb) := by
  rcases commit_dataOut_inv uan d nrows genes sel excl repl org tdb ems t hc ht with
    ⟨huan, hcc⟩ | ⟨huan, hcr⟩
  · obtain ⟨htax, hflag, hgia, hsub, -⟩ :=
      commit_cols_inv d genes sel (knownGenes genes) excl repl org tdb t hcc
    refine ⟨htax, ?_, ?_⟩
    · intro hfalse
      rw [huan] at hfalse
      cases hfalse
    · intro _
      refine ⟨hflag, hgia, ?_, hsub⟩
      intro g hg i hfi
      obtain ⟨v0, hv0, hv0name⟩ := findName_some_name g.input_name (domainVars d) i hfi
      have hproc := processGenes_at tdb repl (domainVars d) genes
        (nodup_input_names genes hnd) (symClear_spec genes hsym) g hg i hfi
      refine ⟨applyGene tdb repl g v0, ?_, ?_⟩
      · unfold processedVars
        rw [hproc, hv0]
        rfl
      · rw [applyGene_attrs]
        exact lookupAttr_setAttr tdb (geneTargetId g) v0.attrs
  · obtain ⟨htax, hflag, hgic, -, -, hmetas, hvals⟩ :=
      commit_rows_inv d nrows (get_target_ids genes) sel (knownGenes genes)
        excl org tdb t hcr
    refine ⟨htax, ?_, ?_⟩
    · intro _
      refine ⟨hflag, hgic, ?_, ?_⟩
      · intro hfind
        rw [hmetas, rowsGeneVarMetas_fresh d tdb hfind]
      · intro x hx
        rw [hvals] at hx
        exact rowsFinal_subset (get_target_ids genes) sel (knownGenes genes)
          excl x hx
    · intro htrue
      rw [huan] at htrue
      cases htrue

/-- C3, witness for the amended theorem: concrete genes-as-columns commit;
the matched feature carries its Entrez id and the table attributes are set
for the columns orientation. -/
theorem c3_two_orientations_witness :
    ((exGenes.map Gene.input_name).Nodup) ∧
    (symClear exGenes = true) ∧
    (commit true exD 2 exGenes [] true true "9606" "Entrez ID"
      = some [Emission.dataOut (some exColsT),
              Emission.genesOut (some (to_data_table exGenes none))]) ∧
    (Emission.dataOut (some exColsT)
      ∈ [Emission.dataOut (some exColsT),
         Emission.genesOut (some (to_data_table exGenes none))]) ∧
    (exColsT.tax_id = "9606" ∧
     (true = false →
        exColsT.gene_as_attr_name = false ∧
        exColsT.gene_id_column = some "Entrez ID" ∧
        ((domainVars exD).find? (fun v => v.name = "Entrez ID") = none →
           exColsT.domain.metas
             = exD.metas ++ [⟨"Entrez ID", VarType.string, []⟩]) ∧
        ∀ x ∈ exColsT.geneColVals, x ∈ get_target_ids exGenes) ∧
     (true = true →
        exColsT.gene_as_attr_name = true ∧
        exColsT.gene_id_attribute = some "Entrez ID" ∧
        (∀ g ∈ exGenes, ∀ i,
           findName g.input_name (domainVars exD) = some i →
           ∃ v, (processedVars exD exGenes true "Entrez ID")[i]? = some v ∧
             lookupAttr v.attrs "Entrez ID" = some (geneTargetId g)) ∧
        ∀ v ∈ exColsT.domain.attributes,
          v ∈ processedAttrs exD exGenes true "Entrez ID")) :=
  ⟨by decide, by decide, by decide, by decide,
   c3_two_orientations true exD 2 exGenes [] true true "9606" "Entrez ID"
     [Emission.dataOut (some exColsT),
      Emission.genesOut (some (to_data_table exGenes none))]
     exColsT (by decide) (by decide) (by decide) (by decide)⟩

/-! ## C4 -/

/-- C4: in a genes-as-columns commit with replace-id-with-symbol on, the
input feature a matched gene (with a symbol) resolved to is renamed to that
gene's symbol in the transformed table, and the features of the emitted table
are drawn from those processed columns. -/
theorem c4_feature_renamed_to_symbol (d : Domain) (genes : List Gene)
    (sel known : List String) (excl : Bool) (org tdb : String)
    (g : Gene) (s : String) (i : Nat)
    (hnd : (genes.map Gene.input_name).Nodup)
    (hsym : symClear genes = true)
    (hg : g ∈ genes) (hs : g.symbol = some s) (hm : g.ncbi_id.isSome)
    (hfi : findName g.input_name (domainVars d) = some i)
    (hlt : i < d.attributes.length) :
    (∃ v, (processedVars d genes true tdb)[i]? = some v ∧ v.name = s ∧
       v ∈ processedAttrs d genes true tdb) ∧
    ∀ t, commit_cols d genes sel known excl true org tdb = some t →
      ∀ v ∈ t.domain.attributes, v ∈ processedAttrs d genes true tdb := by
  constructor
  · obtain ⟨v0, hv0, hv0name⟩ := findName_some_name g.input_name (domainVars d) i hfi
    have hproc := processGenes_at tdb true (domainVars d) genes
      (nodup_input_names genes hnd) (symClear_spec genes hsym) g hg i hfi
    have hvi : (processedVars d genes true tdb)[i]? = some (applyGene tdb true g v0) := by
      unfold processedVars
      rw [hproc, hv0]
      rfl
    refine ⟨applyGene tdb true g v0, hvi, applyGene_name_symbol tdb g v0 s hs, ?_⟩
    have htake : (processedAttrs d genes true tdb)[i]?
        = some (applyGene tdb true g v0) := by
      unfold processedAttrs
      rw [List.getElem?_take_of_lt hlt]
      exact hvi
    exact List.getElem?_mem htake
  · intro t htc v hv
    exact (commit_cols_inv d genes sel known excl true org tdb t htc).2.2.2.1 v hv

/-- C4, witness: concrete commit where the matched feature `g1` is renamed to
the symbol `S1`. -/
theorem c4_feature_renamed_witness :
    ((exGenes.map Gene.input_name).Nodup) ∧
    (symClear exGenes = true) ∧
    ((Gene.mk "g1" (some "5561") (some "S1")) ∈ exGenes) ∧
    ((Gene.mk "g1" (some "5561") (some "S1")).symbol = some "S1") ∧
    ((Gene.mk "g1" (some "5561") (some "S1")).ncbi_id.isSome) ∧
    (findName (Gene.mk "g1" (some "5561") (some "S1")).input_name (domainVars exD)
      = some 0) ∧
    (0 < exD.attributes.length) ∧
    ((∃ v, (processedVars exD exGenes true "Entrez ID")[0]? = some v ∧
        v.name = "S1" ∧ v ∈ processedAttrs exD exGenes true "Entrez ID") ∧
     ∀ t, commit_cols exD exGenes [] ["5561"] true true "9606" "Entrez ID"
         = some t →
       ∀ v ∈ t.domain.attributes, v ∈ processedAttrs exD exGenes true "Entrez ID") :=
  ⟨by decide, by decide, by decide, by decide, by decide, by decide, by decide,
   c4_feature_renamed_to_symbol exD exGenes [] ["5561"] true "9606" "Entrez ID"
     (Gene.mk "g1" (some "5561") (some "S1")) "S1" 0
     (by decide) (by decide) (by decide) (by decide) (by decide) (by decide)
     (by decide)⟩

/-! ## C6 -/

/-- C6: every commit that runs to completion sends on both output channels:
some payload on Data and some payload on Genes; and whenever at least one
gene is known, both payloads are actual tables (the transformed dataset and
the match report) rather than `None`. -/
theorem c6_commit_emits_both_channels (uan : Bool) (d : Domain) (nrows : Nat)
    (genes : List Gene) (sel : List String) (excl repl : Bool) (org tdb : String)
    (ems : List Emission)
    (hc : commit uan d nrows genes sel excl repl org tdb = some ems) :
    (∃ p, Emission.dataOut p ∈ ems) ∧ (∃ q, Emission.genesOut q ∈ ems) ∧
    (knownGenes genes ≠ [] →
       (∃ t, Emission.dataOut (some t) ∈ ems) ∧
       ∃ gm, Emission.genesOut (some gm) ∈ ems) := by
  unfold commit at hc
  by_cases hk : (knownGenes genes).isEmpty
  · rw [if_pos hk] at hc
    injection hc with hc
    subst hc
    refine ⟨⟨none, by simp⟩, ⟨none, by simp⟩, ?_⟩
    intro hne
    exact absurd (List.isEmpty_iff.mp hk) hne
  · rw [if_neg hk] at hc
    by_cases huan : uan = true
    · rw [if_pos huan] at hc
      cases hcc : commit_cols d genes sel (knownGenes genes) excl repl org tdb with
      | none => rw [hcc] at hc; cases hc
      | some t0 =>
        rw [hcc] at hc
        injection hc with hc
        subst hc
        exact ⟨⟨some t0, by simp⟩, ⟨some (commitGM genes sel), by simp⟩,
          fun _ => ⟨⟨t0, by simp⟩, commitGM genes sel, by simp⟩⟩
    · rw [if_neg huan] at hc
      cases hcr : commit_rows d nrows (get_target_ids genes) sel (knownGenes genes)
          excl org tdb with
      | none => rw [hcr] at hc; cases hc
      | some t0 =>
        rw [hcr] at hc
        injection hc with hc
        subst hc
        exact ⟨⟨some t0, by simp⟩, ⟨some (commitGM genes sel), by simp⟩,
          fun _ => ⟨⟨t0, by simp⟩, commitGM genes sel, by simp⟩⟩

/-- C6, witness: the concrete genes-as-columns commit sends on both
channels with non-`None` payloads. -/
theorem c6_commit_emits_witness :
    (commit true exD 2 exGenes [] true true "9606" "Entrez ID"
      = some [Emission.dataOut (some exColsT),
              Emission.genesOut (some (to_data_table exGenes none))]) ∧
    ((∃ p, Emission.dataOut p
        ∈ [Emission.dataOut (some exColsT),
           Emission.genesOut (some (to_data_table exGenes none))]) ∧
     (∃ q, Emission.genesOut q
        ∈ [Emission.dataOut (some exColsT),
           Emission.genesOut (some (to_data_table exGenes none))]) ∧
     (knownGenes exGenes ≠ [] →
        (∃ t, Emission.dataOut (some t)
           ∈ [Emission.dataOut (some exColsT),
              Emission.genesOut (some (to_data_table exGenes none))]) ∧
        ∃ gm, Emission.genesOut (some gm)
           ∈ [Emission.dataOut (some exColsT),
              Emission.genesOut (some (to_data_table exGenes none))])) :=
  ⟨by decide,
   c6_commit_emits_both_channels true exD 2 exGenes [] true true "9606" "Entrez ID"
     [Emission.dataOut (some exColsT),
      Emission.genesOut (some (to_data_table exGenes none))] (by decide)⟩

end OWGenes
